import Mathlib

namespace AUW

/-!
# Verification of the assistant-ui-anywidget orchestration core

A shallow embedding of the code-execution primitive
(`assistant_ui_anywidget/kernel_interface.py`), the LangGraph approval
routing (`assistant_ui_anywidget/ai/langgraph_service.py`) and the
spec-level orchestrator state machine, together with theorems settling
the frozen claims about them.

Python objects are modelled by their object identity: a `Nat` object id.
The Python `None` singleton is the fixed id `pyNoneId`; `a is b` becomes
equality of ids.  Namespaces (`shell.user_ns`, snapshots) are association
lists `List (String × Nat)` from names to object ids.  Wall-clock fields
(`execution_time`) are not modelled.
-/

/-- Object id of the Python `None` singleton. -/
def pyNoneId : Nat := 0

/-- Python `dict.get(key)` with default `None`: returns the bound object id,
or the id of `None` when the key is absent. -/
def pyDictGet (d : List (String × Nat)) (k : String) : Nat :=
  match d.lookup k with
  | some v => v
  | none => pyNoneId

/-- The slice of IPython `InteractiveShell` state that `KernelInterface`
reads: `user_ns` and `execution_count`. -/
structure Shell where
  user_ns : List (String × Nat)
  execution_count : Nat
  deriving DecidableEq

/-- `KernelInterface.__init__`: `self.shell = get_ipython() ...` (possibly
`None`), `self._namespace_snapshot = {}`.  The snapshot field is written
nowhere else in the source. -/
structure KernelInterface where
  shell : Option Shell
  namespace_snapshot : List (String × Nat)
  deriving DecidableEq

/-- `KernelInterface.__init__` with a given (possibly absent) shell. -/
def KernelInterface.init (shell : Option Shell) : KernelInterface :=
  { shell := shell, namespace_snapshot := [] }

/-- `KernelInterface.is_available`: `self.shell is not None`. -/
def KernelInterface.is_available (k : KernelInterface) : Bool :=
  k.shell.isSome

/-- Python `name.startswith("_")`: the first character is an underscore. -/
def startsWithUnderscore (s : String) : Bool :=
  match s.data with
  | [] => false
  | c :: _ => c == '_'

/-- The names excluded by `get_namespace` besides underscore-prefixed ones. -/
def hiddenNames : List String := ["In", "Out", "get_ipython", "exit", "quit"]

/-- `KernelInterface.get_namespace`: empty when the kernel is unavailable,
otherwise `user_ns` without underscore-prefixed names and without
`In`, `Out`, `get_ipython`, `exit`, `quit`. -/
def get_namespace (k : KernelInterface) : List (String × Nat) :=
  match k.shell with
  | none => []
  | some sh =>
      sh.user_ns.filter (fun p => !startsWithUnderscore p.1 && !hiddenNames.contains p.1)

/-- A Python exception as `execute_code` reports it: class name, `str(e)`,
and formatted traceback lines (`_format_traceback` / `format_exc`). -/
structure PyError where
  typeName : String
  message : String
  traceFrames : List String
  deriving DecidableEq

/-- One visible behavior of `self.shell.run_cell(code, ...)` inside the
`try` block of `execute_code`:
* `raises`: a host-level exception escapes `run_cell` (leaving the shell in
  state `shellAfter`);
* `completes`: `run_cell` returns a result object, with the shell mutated to
  `shellAfter`, the text the run wrote to the redirected stdout / stderr,
  `resultRepr = repr(result.result)` when `result.result is not None`, and
  `errorInExec` the exception stored in `result.error_in_exec`, if any. -/
inductive HostRun where
  | raises (shellAfter : Shell) (e : PyError)
  | completes (shellAfter : Shell) (stdoutText stderrText : String)
      (resultRepr : Option String) (errorInExec : Option PyError)
  deriving DecidableEq

/-- An entry of `ExecutionResult.outputs`. -/
inductive OutputItem where
  | stream (name : String) (text : String)
  | execute_result (reprText : String) (execution_count : Nat)
  deriving DecidableEq

/-- The error dict `{"type": ..., "message": ..., "traceback": ...}`. -/
structure ErrDict where
  type : String
  message : String
  traceback : List String
  deriving DecidableEq

/-- `ExecutionResult` (the `execution_time` float is not modelled). -/
structure ExecutionResult where
  success : Bool
  execution_count : Nat
  outputs : List OutputItem
  variables_changed : List String
  error : Option ErrDict
  deriving DecidableEq

/-- The result `execute_code` returns when `self.is_available` is false. -/
def kernelUnavailableResult : ExecutionResult :=
  { success := false
    execution_count := 0
    outputs := []
    variables_changed := []
    error := some { type := "KernelError", message := "Kernel not available", traceback := [] } }

/-- Everything `execute_code` does from the `try` block on, given the
pre-run interface state `k` (with `k.shell` present) and the behavior of
`run_cell`.  Mirrors lines 305-412 of `kernel_interface.py`:

* `before_vars = set(self.get_namespace().keys())`;
* on a host-level exception: `success=False`, empty outputs and
  `variables_changed`, error dict from the exception;
* on completion: `after_vars` from the mutated shell, `new_vars` the
  set difference, `modified_vars` those common names whose current binding
  `is not self._namespace_snapshot.get(var)` (the never-updated snapshot,
  so the comparison is against `None` for every name), outputs from the
  captured streams and `repr(result.result)`, and `success` by
  `result.error_in_exec`. -/
def finish_execute (k : KernelInterface) (run : HostRun) : ExecutionResult :=
  let before_vars := (get_namespace k).map Prod.fst
  match run with
  | .raises shellAfter e =>
      { success := false
        execution_count := shellAfter.execution_count
        outputs := []
        variables_changed := []
        error := some { type := e.typeName, message := e.message, traceback := e.traceFrames } }
  | .completes shellAfter stdoutText stderrText resultRepr errorInExec =>
      let after_vars :=
        (get_namespace { k with shell := some shellAfter }).map Prod.fst
      let new_vars := after_vars.filter (fun v => !before_vars.contains v)
      let modified_vars :=
        (before_vars.filter (fun v => after_vars.contains v)).filter
          (fun v => pyDictGet shellAfter.user_ns v != pyDictGet k.namespace_snapshot v)
      let variables_changed := new_vars ++ modified_vars
      let outputs :=
        (if stdoutText != "" then [OutputItem.stream "stdout" stdoutText] else []) ++
        (if stderrText != "" then [OutputItem.stream "stderr" stderrText] else []) ++
        (match resultRepr with
         | some r => [OutputItem.execute_result r shellAfter.execution_count]
         | none => [])
      match errorInExec with
      | some e =>
          { success := false
            execution_count := shellAfter.execution_count
            outputs := outputs
            variables_changed := variables_changed
            error := some { type := e.typeName, message := e.message, traceback := e.traceFrames } }
      | none =>
          { success := true
            execution_count := shellAfter.execution_count
            outputs := outputs
            variables_changed := variables_changed
            error := none }

/-- `KernelInterface.execute_code`: the unavailable-kernel early return,
then the body of `finish_execute`.  The `code` string only reaches the
host, whose behavior is the explicit `run` argument. -/
def execute_code (k : KernelInterface) (code : String) (run : HostRun) : ExecutionResult :=
  match k.shell with
  | none => kernelUnavailableResult
  | some _ => finish_execute k run

/-- Mirrors the control flow of `execute_code`, counting how many times
`self.get_namespace()` is called: none on the unavailable early return,
only the `before_vars` one when the host raises, and the `before_vars`
and `after_vars` ones when `run_cell` returns. -/
def execute_code_snapshot_count (k : KernelInterface) (run : HostRun) : Nat :=
  match k.shell with
  | none => 0
  | some _ =>
      match run with
      | .raises _ _ => 1
      | .completes _ _ _ _ _ => 2

/-- The spec's formula for the changed-names set, written from the spec's
words for the refinement comparison of claim C1:
`(keys(after) - keys(before)) ∪ \x7bk ∈ keys(before) ∩ keys(after) :
after[k] is not before[k]\x7d`, where `before` and `after` are the two
namespace-snapshot results taken immediately before and after the run. -/
def spec_changed_names (before after : List (String × Nat)) : List String :=
  ((after.map Prod.fst).filter (fun k => !(before.map Prod.fst).contains k)) ++
  ((before.map Prod.fst).filter (fun k =>
      (after.map Prod.fst).contains k && pyDictGet after k != pyDictGet before k))

/-- The names collected by the variable-listing tools
(`GetVariablesTool._run` in `kernel_tools.py` and the `get_variables`
closure in `langgraph_service.py`): the entries of `get_namespace()` that
additionally pass the tool's privacy and type filters (`include_private`,
`type_filter`, the latter abstracted as a predicate on the bound object). -/
def get_variables_listed (k : KernelInterface) (include_private : Bool)
    (typeOk : Nat → Bool) : List String :=
  ((get_namespace k).filter
      (fun p => (include_private || !startsWithUnderscore p.1) && typeOk p.2)).map Prod.fst

/-- An arbitrary host behavior used for the C6 counterexample. -/
def run_c6 : HostRun := HostRun.completes ⟨[("y", 7)], 1⟩ "out" "" none none

/-- The slice of interpreter state the capture logic touches: which stream
objects `sys.stdout` and `sys.stderr` currently reference (object ids). -/
structure SysState where
  stdout : Nat
  stderr : Nat
  deriving DecidableEq

/-- `with redirect_stdout(stdout_buffer), redirect_stderr(stderr_buffer):`.
On entry each context manager saves the current target and installs its
buffer; on exit — reached both on normal completion and when the body
raises — each restores the saved target.  `body` receives the redirected
state and may itself rebind the streams (executed code can assign to
`sys.stdout`); whatever it does, `__exit__` reinstates the saved values. -/
def redirect_scope {α : Type} (stdoutBuf stderrBuf : Nat) (s : SysState)
    (body : SysState → α × SysState) : α × SysState :=
  let saved := s
  let r := body { stdout := stdoutBuf, stderr := stderrBuf }
  (r.1, { stdout := saved.stdout, stderr := saved.stderr })

/-- `execute_code` with the stream state threaded through it: the
unavailable-kernel early return never redirects; otherwise the host run
happens inside `redirect_scope` (a host-level exception propagates out of
the `with` block — restoring the streams — before the `except` clause
builds the failure result), and the rest of the function runs after the
restoration.  `runEffect` is whatever rebinding of `sys.stdout`/`sys.stderr`
the executed code performs inside the block. -/
def execute_code_sys (k : KernelInterface) (code : String) (run : HostRun)
    (runEffect : SysState → SysState) (stdoutBuf stderrBuf : Nat)
    (s : SysState) : ExecutionResult × SysState :=
  match k.shell with
  | none => (kernelUnavailableResult, s)
  | some _ =>
      let withBlock := redirect_scope stdoutBuf stderrBuf s
        (fun inner => (run, runEffect inner))
      (finish_execute k withBlock.1, withBlock.2)

/-! ## The LangGraph service (`ai/langgraph_service.py`)

LangChain messages are modelled by role-tagged constructors; a tool call
is the dict `\x7b"name": ..., "args": ..., "id": ...\x7d` with the argument
record as an association list of strings. -/

/-- A `ToolCallRequest` as it appears in `AIMessage.tool_calls`. -/
structure ToolCall where
  name : String
  args : List (String × String)
  id : String
  deriving DecidableEq

/-- A LangChain message: `SystemMessage`, `HumanMessage`, `AIMessage`
(with its tool calls) or `ToolMessage`. -/
inductive Msg where
  | system (content : String)
  | human (content : String)
  | ai (content : String) (tool_calls : List ToolCall)
  | tool (content : String) (tool_call_id : String)
  deriving DecidableEq

/-- Whether a message is a tool-result (`ToolMessage`). -/
def Msg.isToolMsg : Msg → Bool
  | .tool _ _ => true
  | _ => false

/-- The `AgentState` pydantic model (its `kernel_context` dict is opaque
here, kept as an optional marker). -/
structure AgentState where
  messages : List Msg
  kernel_context : Option String := none
  thread_id : Option String := none
  pending_approval : Bool := false
  last_error : Option String := none
  deriving DecidableEq

/-- `str(END)` for LangGraph's `END` sentinel. -/
def END_NODE : String := "__end__"

/-- `should_continue`: `"tools"` when the last message is an `AIMessage`
with tool calls, `str(END)` otherwise (including the empty transcript). -/
def should_continue (state : AgentState) : String :=
  match state.messages.getLast? with
  | some (Msg.ai _ tool_calls) =>
      if tool_calls.isEmpty then END_NODE else "tools"
  | _ => END_NODE

/-- `should_require_approval`: `str(END)` when the last message is not an
`AIMessage` with tool calls; `"approval"` when any of its tool calls is
named `execute_code`; `"tools"` otherwise. -/
def should_require_approval (state : AgentState) : String :=
  match state.messages.getLast? with
  | some (Msg.ai _ tool_calls) =>
      if tool_calls.isEmpty then END_NODE
      else if tool_calls.any (fun tc => tc.name == "execute_code") then "approval"
      else "tools"
  | _ => END_NODE

/-- The code blocks `approval_node` extracts from the last message's
`execute_code` calls (`tool_call["args"]["code"]`; the key is always
present on calls produced against the tool's schema, missing keys read
as the empty string here). -/
def approval_code_blocks (state : AgentState) : List String :=
  match state.messages.getLast? with
  | some (Msg.ai _ tool_calls) =>
      (tool_calls.filter (fun tc => tc.name == "execute_code")).map
        (fun tc => (tc.args.lookup "code").getD "")
  | _ => []

/-- The human-readable approval prompt `approval_node` passes to
`interrupt`. -/
def approval_message (code_blocks : List String) : String :=
  "Approve code execution?\n\n" ++
    String.join ((code_blocks.enumFrom 1).map
      (fun p => "Code block " ++ toString p.1 ++ ":\n```python\n" ++ p.2 ++ "\n```\n\n"))

/-- The partial state update a LangGraph node returns (`add_messages`
appends; an absent key leaves the field unchanged). -/
structure StateUpdate where
  messages : List Msg := []
  pending_approval : Option Bool := none
  deriving DecidableEq

/-- `approval_node`, with the value that `interrupt` returns on resumption
made explicit as `decision`: the empty update on an empty transcript;
on any decision other than `"approved"`, the update appending
`HumanMessage("Code execution denied by user.")` and clearing
`pending_approval`; on approval, just the clearing update. -/
def approval_node (state : AgentState) (decision : String) : StateUpdate :=
  if state.messages.isEmpty then {}
  else if decision != "approved" then
    { messages := [Msg.human "Code execution denied by user."],
      pending_approval := some false }
  else { pending_approval := some false }

/-- The shape of the compiled graph `create_agent_graph` builds: the entry
point, the conditional-edge router out of `"agent"` with its routing map,
and the unconditional edges. -/
structure CompiledGraph where
  entry : String
  router : AgentState → String
  route_map : List (String × String)
  static_edges : List (String × String)

/-- `create_agent_graph`: entry `"agent"`; with approval enabled, the
conditional edges out of `"agent"` use `should_require_approval` with map
`tools ↦ tools`, `approval ↦ approval`, `END ↦ END` plus the unconditional
edges `approval → tools` and `tools → agent`; without approval, the router
is `should_continue` and there is no approval node. -/
def create_agent_graph (require_approval : Bool) : CompiledGraph :=
  if require_approval then
    { entry := "agent"
      router := should_require_approval
      route_map := [("tools", "tools"), ("approval", "approval"), (END_NODE, END_NODE)]
      static_edges := [("approval", "tools"), ("tools", "agent")] }
  else
    { entry := "agent"
      router := should_continue
      route_map := [("tools", "tools"), (END_NODE, END_NODE)]
      static_edges := [("tools", "agent")] }

/-- The node the graph moves to after the `"agent"` node produced the
current last message. -/
def next_node_after_agent (g : CompiledGraph) (state : AgentState) : String :=
  (g.route_map.lookup (g.router state)).getD END_NODE

/-- A state whose last message is an assistant request for the gated
`execute_code` tool, awaiting the approval decision. -/
def st_c3 : AgentState :=
  { messages := [Msg.human "run 1/0",
                 Msg.ai "" [⟨"execute_code", [("code", "1/0")], "call_1"⟩]],
    pending_approval := true }

/-! ## The chat entry point (`LangGraphAIService.chat`) -/

/-- The `message` argument of `chat`: `str | bool`. -/
inductive ChatMessage where
  | boolean (b : Bool)
  | text (s : String)
  deriving DecidableEq

/-- What `chat` passes to `self.agent.invoke`: either a
`Command(resume=...)` or an input state carrying messages to append. -/
inductive AgentPayload where
  | resumeCommand (decision : String)
  | stateInput (messages : List Msg)
  deriving DecidableEq

/-- The payload-building dispatch at the top of `chat` (lines 474-504):
a boolean message becomes `Command(resume="approved"/"denied")`; the exact
strings `"Approve"` and `"Deny"` become the corresponding commands; any
other string becomes a state input appending an optional context system
message and `HumanMessage(message)`.  `context` stands for the
`build_context_message(context)` text when a context is supplied. -/
def build_chat_payload (message : ChatMessage) (context : Option String) :
    AgentPayload :=
  match message with
  | .boolean b => .resumeCommand (if b then "approved" else "denied")
  | .text s =>
      if s == "Approve" then .resumeCommand "approved"
      else if s == "Deny" then .resumeCommand "denied"
      else
        .stateInput
          ((match context with
            | some ctx => [Msg.system ctx]
            | none => []) ++ [Msg.human s])

/-! ## The orchestrator state machine and Resume Handler

The suspend/resume bookkeeping (the pending-approval check on resume) and
the turn loop cap are implemented by the external graph-execution
library's checkpoint/interrupt runtime, which the repository only calls
into (`self.agent.invoke`, the compiled graph's recursion limit); that
runtime is not part of the repository's sources.  The definitions below
are therefore modelled from the spec (§4.4, §4.5, §7, §8). -/

/-- A transcript message of the spec's data model (§3 `Message` /
`ToolResult`): role, content, and for tool results the call id and an
optional structured error kind. -/
inductive SpecMessage where
  | user (content : String)
  | assistant (content : String) (tool_calls : List ToolCall)
  | toolResult (call_id : String) (output : String) (errKind : Option String)
  deriving DecidableEq

/-- Modelled from the spec: §3 `ConversationState` — per-thread message
history, pending-approval marker and pending call. -/
structure SpecConvState where
  messages : List SpecMessage
  pending_approval : Bool
  pending_call : Option ToolCall
  deriving DecidableEq

/-- §3 `RiskTier`: a static property of a tool's registry entry. -/
inductive RiskTier where
  | safe
  | requires_approval
  deriving DecidableEq

/-- What a tool handler returns: output text and an optional error kind. -/
structure SpecToolResult where
  output : String
  errKind : Option String
  deriving DecidableEq

/-- §6 `TurnResult`: `Final` or `Interrupted`. -/
inductive TurnResult where
  | final (text : String) (success : Bool) (errorKind : Option String)
  | interrupted (message : String) (tool_name : String)
      (arguments : List (String × String))
  deriving DecidableEq

/-- §7 `Decision`: the human approval decision passed to `resume`. -/
inductive Decision where
  | approved
  | denied
  deriving DecidableEq

/-- Modelled from the spec: §4.4 `ROUTE`/`EXEC_SAFE` — resolve the calls of
one assistant message in order: an unknown tool becomes a `ToolResult`
with error kind `"UnknownTool"`; a safe tool runs and its result is
appended; a `requires_approval` tool suspends the turn, storing the
pending call and marker (`AWAIT_APPROVAL`). -/
def resolve_calls (tier : String → Option RiskTier)
    (run_tool : ToolCall → SpecToolResult) :
    List ToolCall → SpecConvState → SpecConvState ⊕ (TurnResult × SpecConvState)
  | [], st => Sum.inl st
  | tc :: rest, st =>
      match tier tc.name with
      | none =>
          resolve_calls tier run_tool rest
            { st with messages := st.messages ++
                [SpecMessage.toolResult tc.id "" (some "UnknownTool")] }
      | some RiskTier.safe =>
          resolve_calls tier run_tool rest
            { st with messages := st.messages ++
                [SpecMessage.toolResult tc.id (run_tool tc).output (run_tool tc).errKind] }
      | some RiskTier.requires_approval =>
          Sum.inr (TurnResult.interrupted "Approval required" tc.name tc.args,
            { st with pending_approval := true, pending_call := some tc })

/-- Modelled from the spec: the §4.4 `AGENT → ROUTE → …` loop, driven by
the model binding `infer` and bounded by the configured cap on
`AGENT ↔ EXEC_SAFE` cycles: each entry of `AGENT` consumes one unit, and a
turn that would exceed the cap aborts with error kind
`"ToolLoopLimitExceeded"`. -/
def run_from_agent (infer : List SpecMessage → String × List ToolCall)
    (tier : String → Option RiskTier) (run_tool : ToolCall → SpecToolResult) :
    Nat → SpecConvState → TurnResult × SpecConvState
  | 0, st => (TurnResult.final "" false (some "ToolLoopLimitExceeded"), st)
  | fuel + 1, st =>
      let reply := infer st.messages
      let st1 : SpecConvState :=
        { st with messages := st.messages ++ [SpecMessage.assistant reply.1 reply.2] }
      if reply.2.isEmpty then (TurnResult.final reply.1 true none, st1)
      else
        match resolve_calls tier run_tool reply.2 st1 with
        | Sum.inl st2 => run_from_agent infer tier run_tool fuel st2
        | Sum.inr out => out

/-- Mirrors `run_from_agent`, counting how many times the `AGENT` state is
entered (how often the model binding is invoked) within one turn. -/
def agent_calls (infer : List SpecMessage → String × List ToolCall)
    (tier : String → Option RiskTier) (run_tool : ToolCall → SpecToolResult) :
    Nat → SpecConvState → Nat
  | 0, _ => 0
  | fuel + 1, st =>
      let reply := infer st.messages
      let st1 : SpecConvState :=
        { st with messages := st.messages ++ [SpecMessage.assistant reply.1 reply.2] }
      if reply.2.isEmpty then 1
      else
        match resolve_calls tier run_tool reply.2 st1 with
        | Sum.inl st2 => 1 + agent_calls infer tier run_tool fuel st2
        | Sum.inr _ => 1

/-- Modelled from the spec: §4.5 `resume(thread_id, decision)` — fail with
`"NoPendingApproval"` when nothing is pending; on denial append a
`ToolResult` with error kind `"Denied"`, clear the pending state and
re-enter the `AGENT` loop; on approval run the pending tool, append its
result, clear the pending state and re-enter the `AGENT` loop. -/
def resume_handler (infer : List SpecMessage → String × List ToolCall)
    (tier : String → Option RiskTier) (run_tool : ToolCall → SpecToolResult)
    (limit : Nat) (st : SpecConvState) (d : Decision) :
    TurnResult × SpecConvState :=
  if st.pending_approval then
    match d with
    | Decision.denied =>
        run_from_agent infer tier run_tool limit
          { messages := st.messages ++
              [SpecMessage.toolResult ((st.pending_call.map ToolCall.id).getD "")
                "Execution denied by user." (some "Denied")],
            pending_approval := false
            pending_call := none }
    | Decision.approved =>
        match st.pending_call with
        | none => (TurnResult.final "" false (some "NoPendingApproval"), st)
        | some tc =>
            run_from_agent infer tier run_tool limit
              { messages := st.messages ++
                  [SpecMessage.toolResult tc.id (run_tool tc).output (run_tool tc).errKind],
                pending_approval := false
                pending_call := none }
  else (TurnResult.final "" false (some "NoPendingApproval"), st)

/-- A model binding that answers without tool calls, for the C4 witness. -/
def infer_c4 : List SpecMessage → String × List ToolCall := fun _ => ("4", [])

/-- A registry with no tools, for the C4 witness. -/
def tier_c4 : String → Option RiskTier := fun _ => none

/-- A vacuous tool runner for the C4 and C7 witnesses. -/
def run_tool_triv : ToolCall → SpecToolResult := fun _ => ⟨"", none⟩

/-- A state with a pending `execute_code` approval, for the C4 witness. -/
def st_c4 : SpecConvState :=
  { messages := [SpecMessage.user "run 1/0"],
    pending_approval := true,
    pending_call := some ⟨"execute_code", [("code", "1/0")], "call_1"⟩ }

/-- A state with nothing pending, for the C4 witness. -/
def st0_c4 : SpecConvState :=
  { messages := [], pending_approval := false, pending_call := none }

/-- The misbehaving model binding for the C7 witness: it always requests
one more safe tool call. -/
def infer_c7 : List SpecMessage → String × List ToolCall :=
  fun _ => ("", [⟨"get_variables", [], "call_7"⟩])

/-- A registry classifying every tool as safe, for the C7 witness. -/
def tier_c7 : String → Option RiskTier := fun _ => some RiskTier.safe

/-! ## Theorems -/

/-- Every key of a `get_namespace` result passes the privacy and
hidden-name filters. -/
theorem mem_get_namespace_keys {k : KernelInterface} {n : String}
    (h : n ∈ (get_namespace k).map Prod.fst) :
    startsWithUnderscore n = false ∧ hiddenNames.contains n = false := by
  match hs : k.shell with
  | none => simp [get_namespace, hs] at h
  | some sh =>
      simp only [get_namespace, hs, List.mem_map, List.mem_filter] at h
      obtain ⟨p, ⟨-, hp⟩, rfl⟩ := h
      simpa [Bool.and_eq_true, Bool.not_eq_true'] using hp

/-- C1.  The code compares the post-run binding of each surviving name
against `self._namespace_snapshot`, a dict that `__init__` creates empty
and that nothing ever updates — not against the pre-run snapshot.  On a
user namespace holding one untouched variable `x` (object id 5, not
`None`), a run that changes nothing is reported as having changed `x`,
while the spec's before/after formula yields the empty set. -/
theorem c1_untouched_variable_reported_changed :
    (execute_code (KernelInterface.init (some ⟨[("x", 5)], 1⟩)) "pass"
        (HostRun.completes ⟨[("x", 5)], 2⟩ "" "" none none)).variables_changed = ["x"] ∧
    (execute_code (KernelInterface.init (some ⟨[("x", 5)], 1⟩)) "pass"
        (HostRun.completes ⟨[("x", 5)], 2⟩ "" "" none none)).success = true ∧
    spec_changed_names
        (get_namespace (KernelInterface.init (some ⟨[("x", 5)], 1⟩)))
        (get_namespace ⟨some ⟨[("x", 5)], 2⟩, []⟩) = [] := by
  refine ⟨rfl, rfl, rfl⟩

/-- C5.  When the executed code raises inside the host (`run_cell` returns
with `error_in_exec` set), `execute_code` reports `success = false`, an
error dict whose type is the exception's class name, whose message is
`str(exception)` and whose traceback is the formatted frames, and the
outputs still carry the stdout/stderr text captured up to the failure. -/
theorem c5_execution_error_reporting (sh shellAfter : Shell)
    (snap : List (String × Nat)) (code so se : String) (rr : Option String)
    (e : PyError) (hso : so ≠ "") (hse : se ≠ "") :
    (execute_code ⟨some sh, snap⟩ code
        (HostRun.completes shellAfter so se rr (some e))).success = false ∧
    (execute_code ⟨some sh, snap⟩ code
        (HostRun.completes shellAfter so se rr (some e))).error =
      some { type := e.typeName, message := e.message, traceback := e.traceFrames } ∧
    OutputItem.stream "stdout" so ∈
      (execute_code ⟨some sh, snap⟩ code
        (HostRun.completes shellAfter so se rr (some e))).outputs ∧
    OutputItem.stream "stderr" se ∈
      (execute_code ⟨some sh, snap⟩ code
        (HostRun.completes shellAfter so se rr (some e))).outputs := by
  refine ⟨rfl, rfl, ?_, ?_⟩ <;>
    simp [execute_code, finish_execute, hso, hse]

/-- Witness for C5 at a concrete divide-by-zero run. -/
theorem c5_execution_error_reporting_witness :
    ("out" : String) ≠ "" ∧ ("err" : String) ≠ "" ∧
    ((execute_code ⟨some ⟨[], 1⟩, []⟩ "1/0"
        (HostRun.completes ⟨[], 2⟩ "out" "err" none
          (some ⟨"ZeroDivisionError", "division by zero", ["frame"]⟩))).success = false ∧
     (execute_code ⟨some ⟨[], 1⟩, []⟩ "1/0"
        (HostRun.completes ⟨[], 2⟩ "out" "err" none
          (some ⟨"ZeroDivisionError", "division by zero", ["frame"]⟩))).error =
       some { type := "ZeroDivisionError", message := "division by zero",
              traceback := ["frame"] } ∧
     OutputItem.stream "stdout" "out" ∈
       (execute_code ⟨some ⟨[], 1⟩, []⟩ "1/0"
          (HostRun.completes ⟨[], 2⟩ "out" "err" none
            (some ⟨"ZeroDivisionError", "division by zero", ["frame"]⟩))).outputs ∧
     OutputItem.stream "stderr" "err" ∈
       (execute_code ⟨some ⟨[], 1⟩, []⟩ "1/0"
          (HostRun.completes ⟨[], 2⟩ "out" "err" none
            (some ⟨"ZeroDivisionError", "division by zero", ["frame"]⟩))).outputs) :=
  ⟨by decide, by decide,
    c5_execution_error_reporting ⟨[], 1⟩ ⟨[], 2⟩ [] "1/0" "out" "err" none
      ⟨"ZeroDivisionError", "division by zero", ["frame"]⟩ (by decide) (by decide)⟩

/-- C6 counterexample.  With the kernel unavailable, the error kind the
code returns is the literal string `"KernelError"` (as the repository's
own test `test_without_ipython` asserts), not `"HostUnavailable"`. -/
theorem c6_counterexample_kind_is_kernel_error :
    (execute_code (KernelInterface.init none) "1 + 1" run_c6).error =
      some { type := "KernelError", message := "Kernel not available", traceback := [] } ∧
    (execute_code (KernelInterface.init none) "1 + 1" run_c6).error.map ErrDict.type ≠
      some "HostUnavailable" := by
  refine ⟨rfl, by decide⟩

/-- C6 (amended).  If the execution host is unavailable, `execute_code`
immediately returns `success = false` with error kind `"KernelError"`
(message `"Kernel not available"`) and performs no namespace snapshot
calls. -/
theorem c6_amended_host_unavailable (snap : List (String × Nat))
    (code : String) (run : HostRun) :
    (execute_code ⟨none, snap⟩ code run).success = false ∧
    (execute_code ⟨none, snap⟩ code run).error =
      some { type := "KernelError", message := "Kernel not available", traceback := [] } ∧
    execute_code_snapshot_count ⟨none, snap⟩ run = 0 := by
  refine ⟨rfl, rfl, rfl⟩

/-- C10.  `get_namespace` returns exactly the entries of `user_ns` whose
names do not begin with an underscore and are not `In`, `Out`,
`get_ipython`, `exit` or `quit`; consequently every name in
`variables_changed` of any execution result and every name the
variable-listing tools collect passes the same filter. -/
theorem c10_namespace_filtering (sh : Shell) (snap : List (String × Nat))
    (code : String) (run : HostRun) (include_private : Bool) (typeOk : Nat → Bool) :
    (∀ name v, (name, v) ∈ get_namespace ⟨some sh, snap⟩ ↔
        ((name, v) ∈ sh.user_ns ∧ startsWithUnderscore name = false ∧
         hiddenNames.contains name = false)) ∧
    (∀ name ∈ (execute_code ⟨some sh, snap⟩ code run).variables_changed,
        startsWithUnderscore name = false ∧ hiddenNames.contains name = false) ∧
    (∀ name ∈ get_variables_listed ⟨some sh, snap⟩ include_private typeOk,
        startsWithUnderscore name = false ∧ hiddenNames.contains name = false) := by
  refine ⟨?_, ?_, ?_⟩
  · intro name v
    simp [get_namespace, List.mem_filter, Bool.and_eq_true, Bool.not_eq_true', and_assoc]
  · intro name hn
    match run with
    | .raises shellAfter e => simp [execute_code, finish_execute] at hn
    | .completes shellAfter so se rr errIn =>
        have hmem : name ∈ ((get_namespace ⟨some sh, snap⟩).map Prod.fst) ∨
            name ∈ ((get_namespace ⟨some shellAfter, snap⟩).map Prod.fst) := by
          match errIn with
          | some e =>
              simp only [execute_code, finish_execute, List.mem_append,
                List.mem_filter] at hn
              rcases hn with ⟨h, -⟩ | ⟨⟨h, -⟩, -⟩
              · exact Or.inr h
              · exact Or.inl h
          | none =>
              simp only [execute_code, finish_execute, List.mem_append,
                List.mem_filter] at hn
              rcases hn with ⟨h, -⟩ | ⟨⟨h, -⟩, -⟩
              · exact Or.inr h
              · exact Or.inl h
        rcases hmem with h | h
        · exact mem_get_namespace_keys h
        · exact mem_get_namespace_keys h
  · intro name hn
    simp only [get_variables_listed, List.mem_map, List.mem_filter] at hn
    obtain ⟨p, ⟨hp, -⟩, rfl⟩ := hn
    exact mem_get_namespace_keys (List.mem_map_of_mem Prod.fst hp)

/-- C8.  On every exit path of `execute_code` — success, an error raised by
the executed code, and a host-level exception — the process stdout and
stderr streams are restored to their pre-call values before the call
returns, whatever the executed code did to them, and the result is the
same one the pure model computes. -/
theorem c8_streams_restored (k : KernelInterface) (code : String)
    (run : HostRun) (runEffect : SysState → SysState)
    (stdoutBuf stderrBuf : Nat) (s : SysState) :
    (execute_code_sys k code run runEffect stdoutBuf stderrBuf s).2 = s ∧
    (execute_code_sys k code run runEffect stdoutBuf stderrBuf s).1 =
      execute_code k code run := by
  match hs : k.shell with
  | none => exact ⟨by simp [execute_code_sys, hs],
      by simp [execute_code_sys, execute_code, hs]⟩
  | some sh => exact ⟨by simp [execute_code_sys, hs, redirect_scope],
      by simp [execute_code_sys, execute_code, hs, redirect_scope]⟩

/-- C2.  With approval enabled, after the agent node appends an assistant
message: no tool calls routes to `END` (the turn is done); at least one
`execute_code` call routes to the approval node (before any tool
executes); only non-gated calls route straight to the tools node — whose
unconditional edge returns to the agent. -/
theorem c2_routing_after_assistant_message (ms : List Msg) (content : String)
    (tcs : List ToolCall) :
    next_node_after_agent (create_agent_graph true)
        { messages := ms ++ [Msg.ai content tcs] } =
      (if tcs.isEmpty then END_NODE
       else if tcs.any (fun tc => tc.name == "execute_code") then "approval"
       else "tools") ∧
    (create_agent_graph true).static_edges.lookup "tools" = some "agent" := by
  have hl : (ms ++ [Msg.ai content tcs]).getLast? = some (Msg.ai content tcs) := by
    simp
  refine ⟨?_, rfl⟩
  cases h1 : tcs.isEmpty with
  | true =>
      simp only [next_node_after_agent, create_agent_graph,
        should_require_approval, hl, h1, if_true]
      rfl
  | false =>
      cases h2 : tcs.any (fun tc => tc.name == "execute_code") with
      | true =>
          simp only [next_node_after_agent, create_agent_graph,
            should_require_approval, hl, h1, h2, if_true, if_false,
            Bool.false_eq_true]
          rfl
      | false =>
          simp only [next_node_after_agent, create_agent_graph,
            should_require_approval, hl, h1, h2, if_true, if_false,
            Bool.false_eq_true]
          rfl

/-- C3 counterexample.  Resuming the pending approval with a denial makes
`approval_node` append a plain `HumanMessage` — not a tool result carrying
an error kind `"Denied"` — and the graph's unconditional edge sends
control from the approval node to the tools node, not to the agent
(model-call) node. -/
theorem c3_counterexample_denied_path :
    (approval_node st_c3 "denied").messages =
      [Msg.human "Code execution denied by user."] ∧
    ((approval_node st_c3 "denied").messages.all (fun m => !m.isToolMsg)) = true ∧
    (create_agent_graph true).static_edges.lookup "approval" = some "tools" ∧
    (create_agent_graph true).static_edges.lookup "approval" ≠ some "agent" := by
  refine ⟨rfl, rfl, rfl, by decide⟩

/-- C3 (amended).  Resuming a pending approval on a non-empty transcript
with any decision other than `"approved"` appends the plain denial message
`"Code execution denied by user."` as a human message (no tool result and
no structured error kind), clears `pending_approval`, and control then
follows the graph's unconditional `approval → tools` edge (reaching the
agent only via `tools → agent`), so the approval node itself never runs
the gated tool. -/
theorem c3_amended_denied_path (state : AgentState) (decision : String)
    (hne : state.messages ≠ []) (hd : decision ≠ "approved") :
    approval_node state decision =
      { messages := [Msg.human "Code execution denied by user."],
        pending_approval := some false } ∧
    (create_agent_graph true).static_edges.lookup "approval" = some "tools" ∧
    (create_agent_graph true).static_edges.lookup "tools" = some "agent" := by
  refine ⟨?_, rfl, rfl⟩
  have h1 : state.messages.isEmpty = false := by
    cases hm : state.messages with
    | nil => exact absurd hm hne
    | cons a l => rfl
  have h2 : (decision != "approved") = true := by
    simpa using hd
  simp [approval_node, h1, h2]

/-- Witness for C3's amended theorem at the concrete denied resumption. -/
theorem c3_amended_denied_path_witness :
    st_c3.messages ≠ [] ∧ ("denied" : String) ≠ "approved" ∧
    (approval_node st_c3 "denied" =
      { messages := [Msg.human "Code execution denied by user."],
        pending_approval := some false } ∧
     (create_agent_graph true).static_edges.lookup "approval" = some "tools" ∧
     (create_agent_graph true).static_edges.lookup "tools" = some "agent") :=
  ⟨by decide, by decide, c3_amended_denied_path st_c3 "denied" (by decide) (by decide)⟩

/-- C9.  The chat entry point treats a boolean message and the literal
strings `"Approve"`/`"Deny"` as resume decisions — payloads carrying no
transcript messages at all — while every other string is appended as a
human message (after the optional context system message) and starts a
normal model turn. -/
theorem c9_chat_dispatch (b : Bool) (s : String) (context : Option String)
    (hs1 : s ≠ "Approve") (hs2 : s ≠ "Deny") :
    build_chat_payload (.boolean b) context =
      .resumeCommand (if b then "approved" else "denied") ∧
    build_chat_payload (.text "Approve") context = .resumeCommand "approved" ∧
    build_chat_payload (.text "Deny") context = .resumeCommand "denied" ∧
    build_chat_payload (.text s) context =
      .stateInput ((match context with
        | some ctx => [Msg.system ctx]
        | none => []) ++ [Msg.human s]) := by
  refine ⟨rfl, rfl, rfl, ?_⟩
  have h1 : (s == "Approve") = false := by simpa using hs1
  have h2 : (s == "Deny") = false := by simpa using hs2
  simp [build_chat_payload, h1, h2]

/-- Witness for C9 at a concrete conversational message. -/
theorem c9_chat_dispatch_witness :
    ("compute 2+2" : String) ≠ "Approve" ∧ ("compute 2+2" : String) ≠ "Deny" ∧
    (build_chat_payload (.boolean true) none =
       .resumeCommand (if true then "approved" else "denied") ∧
     build_chat_payload (.text "Approve") none = .resumeCommand "approved" ∧
     build_chat_payload (.text "Deny") none = .resumeCommand "denied" ∧
     build_chat_payload (.text "compute 2+2") none =
       .stateInput ((match (none : Option String) with
         | some ctx => [Msg.system ctx]
         | none => []) ++ [Msg.human "compute 2+2"])) :=
  ⟨by decide, by decide,
    c9_chat_dispatch true "compute 2+2" none (by decide) (by decide)⟩

/-- When the model binding never requests tool calls, one `AGENT` pass
leaves the pending-approval marker as it found it. -/
theorem run_from_agent_pending (infer : List SpecMessage → String × List ToolCall)
    (tier : String → Option RiskTier) (run_tool : ToolCall → SpecToolResult)
    (hmodel : ∀ msgs, (infer msgs).2 = []) (limit : Nat) (s : SpecConvState) :
    (run_from_agent infer tier run_tool limit s).2.pending_approval =
      s.pending_approval := by
  cases limit with
  | zero => rfl
  | succ n => simp [run_from_agent, hmodel]

/-- The `AGENT` state is entered at most `limit` times in one turn,
whatever the model and the tools do. -/
theorem agent_calls_le (infer : List SpecMessage → String × List ToolCall)
    (tier : String → Option RiskTier) (run_tool : ToolCall → SpecToolResult)
    (limit : Nat) (st : SpecConvState) :
    agent_calls infer tier run_tool limit st ≤ limit := by
  induction limit generalizing st with
  | zero => exact Nat.le_refl 0
  | succ n ih =>
      simp only [agent_calls]
      cases hempty : (infer st.messages).2.isEmpty with
      | true => simp [hempty]
      | false =>
          simp only [hempty, if_false, Bool.false_eq_true]
          cases hres : resolve_calls tier run_tool (infer st.messages).2
              { st with messages := st.messages ++
                  [SpecMessage.assistant (infer st.messages).1 (infer st.messages).2] } with
          | inl st2 =>
              have h := ih st2
              show 1 + agent_calls infer tier run_tool n st2 ≤ n + 1
              omega
          | inr out =>
              show 1 ≤ n + 1
              omega

/-- C4.  With no pending approval, `resume` (with either decision) returns
a failed result with error kind `"NoPendingApproval"` and leaves the state
— in particular the transcript — unchanged; and after a denial is resumed
(the model reacting without further tool calls), a second denial returns
`"NoPendingApproval"` instead of appending a second denial message. -/
theorem c4_resume_no_pending_idempotent
    (infer : List SpecMessage → String × List ToolCall)
    (tier : String → Option RiskTier) (run_tool : ToolCall → SpecToolResult)
    (limit : Nat) (st0 st : SpecConvState) (d : Decision)
    (hmodel : ∀ msgs, (infer msgs).2 = [])
    (hp0 : st0.pending_approval = false)
    (hp : st.pending_approval = true) :
    resume_handler infer tier run_tool limit st0 d =
      (TurnResult.final "" false (some "NoPendingApproval"), st0) ∧
    resume_handler infer tier run_tool limit
        (resume_handler infer tier run_tool limit st Decision.denied).2
        Decision.denied =
      (TurnResult.final "" false (some "NoPendingApproval"),
       (resume_handler infer tier run_tool limit st Decision.denied).2) := by
  have hpend :
      (resume_handler infer tier run_tool limit st Decision.denied).2.pending_approval
        = false := by
    simp only [resume_handler, hp, if_true]
    rw [run_from_agent_pending infer tier run_tool hmodel]
  constructor
  · simp [resume_handler, hp0]
  · generalize hX : (resume_handler infer tier run_tool limit st Decision.denied).2 = X
      at hpend ⊢
    simp [resume_handler, hpend]

/-- Witness for C4 at concrete states and decisions. -/
theorem c4_resume_no_pending_idempotent_witness :
    resume_handler infer_c4 tier_c4 run_tool_triv 3 st0_c4 Decision.approved =
      (TurnResult.final "" false (some "NoPendingApproval"), st0_c4) ∧
    resume_handler infer_c4 tier_c4 run_tool_triv 3
        (resume_handler infer_c4 tier_c4 run_tool_triv 3 st_c4 Decision.denied).2
        Decision.denied =
      (TurnResult.final "" false (some "NoPendingApproval"),
       (resume_handler infer_c4 tier_c4 run_tool_triv 3 st_c4 Decision.denied).2) :=
  c4_resume_no_pending_idempotent infer_c4 tier_c4 run_tool_triv 3 st0_c4 st_c4
    Decision.approved (fun _ => rfl) rfl rfl

/-- C7.  Within one turn the `AGENT ↔ EXEC_SAFE` cycle is bounded by the
configured limit, and a model that keeps requesting a safe tool forever
makes the turn abort with error kind `"ToolLoopLimitExceeded"` instead of
looping. -/
theorem c7_tool_loop_limit (infer : List SpecMessage → String × List ToolCall)
    (tier : String → Option RiskTier) (run_tool : ToolCall → SpecToolResult)
    (tc : ToolCall) (limit : Nat) (st : SpecConvState)
    (hbad : ∀ msgs, infer msgs = ("", [tc]))
    (hsafe : tier tc.name = some RiskTier.safe) :
    agent_calls infer tier run_tool limit st ≤ limit ∧
    (run_from_agent infer tier run_tool limit st).1 =
      TurnResult.final "" false (some "ToolLoopLimitExceeded") := by
  refine ⟨agent_calls_le infer tier run_tool limit st, ?_⟩
  induction limit generalizing st with
  | zero => rfl
  | succ n ih =>
      simp only [run_from_agent, hbad, List.isEmpty_cons, if_false,
        Bool.false_eq_true, resolve_calls, hsafe]
      exact ih _

/-- Witness for C7 at a concrete misbehaving model and limit. -/
theorem c7_tool_loop_limit_witness :
    agent_calls infer_c7 tier_c7 run_tool_triv 2 st0_c4 ≤ 2 ∧
    (run_from_agent infer_c7 tier_c7 run_tool_triv 2 st0_c4).1 =
      TurnResult.final "" false (some "ToolLoopLimitExceeded") :=
  c7_tool_loop_limit infer_c7 tier_c7 run_tool_triv
    ⟨"get_variables", [], "call_7"⟩ 2 st0_c4 (fun _ => rfl) rfl

end AUW
